import Mathlib

/-!
Shallow embedding of the 6502-family CPU core in src/src/cpu.rs.

Machine integers are modelled as `Nat` kept below 2^8 / 2^16 by explicit
`% 256` / `% 65536` at exactly the places the source truncates (`as u8`,
`as u16`, `wrapping_add`).  A Rust `u8` bitwise NOT becomes `^^^ 0xff`.
Fallible operations (array indexing that can go out of bounds, `expect`,
`todo`, unchecked `+` that can overflow) return `Option`, with `none`
standing for the panic.  The `run` loop is given explicit fuel.
-/

/-- The eight status flags of the bitfield `CpuFlags`; bit positions in the
source are CARRY=0x01, ZERO=0x02, INTERRUPT_DISABLE=0x04, DECIMAL_MODE=0x08,
BREAK=0x10, BREAK2=0x20, OVERFLOW=0x40, NEGATIVE=0x80. -/
structure CpuFlags where
  carry : Bool
  zero : Bool
  interrupt_disable : Bool
  decimal_mode : Bool
  brk : Bool
  brk2 : Bool
  overflow : Bool
  negative : Bool
deriving DecidableEq

/-- Length of the memory array: the source declares `memory: [u8; 0xFFFF]`. -/
def MEMORY_LEN : Nat := 0xFFFF

/-- The source constant `STACK_RESET`. -/
def STACK_RESET : Nat := 0xfd

/-- The CPU state: three 8-bit registers, status flags, 16-bit program
counter, stack pointer, and the flat memory array (as a function). -/
structure CPU where
  register_a : Nat
  register_x : Nat
  register_y : Nat
  status : CpuFlags
  program_counter : Nat
  stack_pointer : Nat
  memory : Nat → Nat

/-- The addressing-mode enumeration of the source. -/
inductive AddressingMode where
  | Immediate
  | ZeroPage
  | ZeroPage_X
  | ZeroPage_Y
  | Absolute
  | Absolute_X
  | Absolute_Y
  | Indirect_X
  | Indirect_Y
  | NoneAddressing
deriving DecidableEq

/-- The status value `CpuFlags::from_bits_truncate(0b00100100)` used by
`new` and `reset`: INTERRUPT_DISABLE and BREAK2 set, all others clear. -/
def resetFlags : CpuFlags :=
  { carry := false, zero := false, interrupt_disable := true,
    decimal_mode := false, brk := false, brk2 := true,
    overflow := false, negative := false }

/-- `CPU::new()`: zeroed registers, stack pointer at `STACK_RESET`, reset
flag pattern, zeroed memory. -/
def CPU.new : CPU :=
  { register_a := 0, register_x := 0, register_y := 0,
    stack_pointer := STACK_RESET, status := resetFlags,
    program_counter := 0, memory := fun _ => 0 }

/-- `mem_read`: `self.memory[addr as usize]`.  The array has `MEMORY_LEN`
elements, so indexing succeeds exactly when `addr < MEMORY_LEN`; `none`
models the out-of-bounds panic. -/
def CPU.mem_read (s : CPU) (addr : Nat) : Option Nat :=
  if addr < MEMORY_LEN then some (s.memory addr) else none

/-- `mem_write`: `self.memory[addr as usize] = data`. -/
def CPU.mem_write (s : CPU) (addr data : Nat) : Option CPU :=
  if addr < MEMORY_LEN then
    some { s with memory := fun a => if a = addr then data else s.memory a }
  else none

/-- `mem_read_u16`: little-endian 16-bit read at `pos` and `pos + 1`. -/
def CPU.mem_read_u16 (s : CPU) (pos : Nat) : Option Nat := do
  let lo ← s.mem_read pos
  let hi ← s.mem_read (pos + 1)
  return (hi <<< 8) ||| lo

/-- `mem_write_u16`: little-endian 16-bit write at `pos` and `pos + 1`. -/
def CPU.mem_write_u16 (s : CPU) (pos data : Nat) : Option CPU := do
  let hi := (data >>> 8) % 256
  let lo := data &&& 0xff
  let s1 ← s.mem_write pos lo
  s1.mem_write (pos + 1) hi

/-- `get_operand_address`, including the source's exact wraparound behavior
in every mode.  Note that the source's `Indirect_Y` arm adds `register_y`
to the zero-page operand before the pointer lookup and never adds it to the
16-bit base (it mirrors the `Indirect_X` arm with `y` in place of `x`).
`NoneAddressing` panics in the source, modelled as `none`. -/
def CPU.get_operand_address (s : CPU) (mode : AddressingMode) : Option Nat :=
  match mode with
  | .Immediate => some s.program_counter
  | .ZeroPage => s.mem_read s.program_counter
  | .Absolute => s.mem_read_u16 s.program_counter
  | .ZeroPage_X => do
      let pos ← s.mem_read s.program_counter
      return (pos + s.register_x) % 256
  | .ZeroPage_Y => do
      let pos ← s.mem_read s.program_counter
      return (pos + s.register_y) % 256
  | .Absolute_X => do
      let base ← s.mem_read_u16 s.program_counter
      return (base + s.register_x) % 65536
  | .Absolute_Y => do
      let base ← s.mem_read_u16 s.program_counter
      return (base + s.register_y) % 65536
  | .Indirect_X => do
      let base ← s.mem_read s.program_counter
      let ptr := (base + s.register_x) % 256
      let lo ← s.mem_read ptr
      let hi ← s.mem_read ((ptr + 1) % 256)
      return (hi <<< 8) ||| lo
  | .Indirect_Y => do
      let base ← s.mem_read s.program_counter
      let ptr := (base + s.register_y) % 256
      let lo ← s.mem_read ptr
      let hi ← s.mem_read ((ptr + 1) % 256)
      return (hi <<< 8) ||| lo
  | .NoneAddressing => none

/-- `update_zero_and_negative_falgs` (name kept from the source): ZERO is
set iff the result is 0, NEGATIVE iff bit 7 of the result is set. -/
def CPU.update_zero_and_negative_falgs (s : CPU) (result : Nat) : CPU :=
  { s with status :=
      { s.status with
          zero := result == 0,
          negative := (result &&& 0b10000000) != 0 } }

/-- `lda`: load the resolved byte into the accumulator and update Z/N. -/
def CPU.lda (s : CPU) (mode : AddressingMode) : Option CPU := do
  let addr ← s.get_operand_address mode
  let value ← s.mem_read addr
  let s := { s with register_a := value }
  return s.update_zero_and_negative_falgs s.register_a

/-- `ldx`: load the resolved byte into register X and update Z/N. -/
def CPU.ldx (s : CPU) (mode : AddressingMode) : Option CPU := do
  let addr ← s.get_operand_address mode
  let value ← s.mem_read addr
  let s := { s with register_x := value }
  return s.update_zero_and_negative_falgs s.register_x

/-- `ldy`: load the resolved byte into register Y and update Z/N. -/
def CPU.ldy (s : CPU) (mode : AddressingMode) : Option CPU := do
  let addr ← s.get_operand_address mode
  let value ← s.mem_read addr
  let s := { s with register_y := value }
  return s.update_zero_and_negative_falgs s.register_y

/-- `sta`: store the accumulator at the resolved address. -/
def CPU.sta (s : CPU) (mode : AddressingMode) : Option CPU := do
  let addr ← s.get_operand_address mode
  s.mem_write addr s.register_a

/-- `stx`: store register X at the resolved address. -/
def CPU.stx (s : CPU) (mode : AddressingMode) : Option CPU := do
  let addr ← s.get_operand_address mode
  s.mem_write addr s.register_x

/-- `sty`: store register Y at the resolved address. -/
def CPU.sty (s : CPU) (mode : AddressingMode) : Option CPU := do
  let addr ← s.get_operand_address mode
  s.mem_write addr s.register_y

/-- `tax`: copy A into X and update Z/N. -/
def CPU.tax (s : CPU) : CPU :=
  let s := { s with register_x := s.register_a }
  s.update_zero_and_negative_falgs s.register_x

/-- `txa`: copy X into A and update Z/N. -/
def CPU.txa (s : CPU) : CPU :=
  let s := { s with register_a := s.register_x }
  s.update_zero_and_negative_falgs s.register_a

/-- `tay`: copy A into Y and update Z/N. -/
def CPU.tay (s : CPU) : CPU :=
  let s := { s with register_y := s.register_a }
  s.update_zero_and_negative_falgs s.register_y

/-- `tya`: copy Y into A and update Z/N. -/
def CPU.tya (s : CPU) : CPU :=
  let s := { s with register_a := s.register_y }
  s.update_zero_and_negative_falgs s.register_a

/-- `inc`: increment the byte at the resolved address with 8-bit wraparound,
write it back, and update Z/N from the new value. -/
def CPU.inc (s : CPU) (mode : AddressingMode) : Option CPU := do
  let addr ← s.get_operand_address mode
  let v0 ← s.mem_read addr
  let value := (v0 + 1) % 256
  let s ← s.mem_write addr value
  return s.update_zero_and_negative_falgs value

/-- `inx`: the source only recomputes Z/N from the wrapped increment of X;
`register_x` itself is not written. -/
def CPU.inx (s : CPU) : CPU :=
  s.update_zero_and_negative_falgs ((s.register_x + 1) % 256)

/-- `iny`: the source only recomputes Z/N from the wrapped increment of Y;
`register_y` itself is not written. -/
def CPU.iny (s : CPU) : CPU :=
  s.update_zero_and_negative_falgs ((s.register_y + 1) % 256)

/-- `and`: bitwise AND of the accumulator with the resolved byte. -/
def CPU.and (s : CPU) (mode : AddressingMode) : Option CPU := do
  let addr ← s.get_operand_address mode
  let v ← s.mem_read addr
  let s := { s with register_a := s.register_a &&& v }
  return s.update_zero_and_negative_falgs s.register_a

/-- `ora`: bitwise OR of the accumulator with the resolved byte. -/
def CPU.ora (s : CPU) (mode : AddressingMode) : Option CPU := do
  let addr ← s.get_operand_address mode
  let v ← s.mem_read addr
  let s := { s with register_a := s.register_a ||| v }
  return s.update_zero_and_negative_falgs s.register_a

/-- `eor`: bitwise XOR of the accumulator with the resolved byte. -/
def CPU.eor (s : CPU) (mode : AddressingMode) : Option CPU := do
  let addr ← s.get_operand_address mode
  let v ← s.mem_read addr
  let s := { s with register_a := s.register_a ^^^ v }
  return s.update_zero_and_negative_falgs s.register_a

/-- `add_to_register_a`: the shared 9-bit add of accumulator, data and the
incoming carry; sets CARRY from the 9th bit and OVERFLOW from the
sign-bit rule, and returns the truncated 8-bit result (the caller stores
it into the accumulator). -/
def CPU.add_to_register_a (s : CPU) (data : Nat) : CPU × Nat :=
  let sum := s.register_a + data + (if s.status.carry then 1 else 0)
  let carry := decide (sum > 0xff)
  let result := sum % 256
  let is_same_sign := ((((s.register_a ^^^ data) ^^^ 0xff) >>> 7) &&& 1) == 1
  let is_wrong_result := xor (((sum >>> 7) &&& 1) == 1) carry
  let overflow := is_same_sign && is_wrong_result
  ({ s with status := { s.status with carry := carry, overflow := overflow } },
   result)

/-- `adc`: add the resolved byte (and carry) to the accumulator via
`add_to_register_a`, then update Z/N. -/
def CPU.adc (s : CPU) (mode : AddressingMode) : Option CPU := do
  let addr ← s.get_operand_address mode
  let v ← s.mem_read addr
  let p := s.add_to_register_a v
  let s := { p.1 with register_a := p.2 }
  return s.update_zero_and_negative_falgs s.register_a

/-- The `!value + 1` computation inside `sbc`: u8 bitwise NOT of the
resolved byte, then an unchecked (non-wrapping) 8-bit addition of 1.
`none` models the overflow panic of the unchecked `+` when the sum does
not fit in 8 bits. -/
def sbc_neg_value (v : Nat) : Option Nat :=
  let notv := v ^^^ 0xff
  if notv + 1 < 256 then some (notv + 1) else none

/-- `sbc`: negate the resolved byte as `!value + 1` and feed the result to
the shared `add_to_register_a` routine, then update Z/N. -/
def CPU.sbc (s : CPU) (mode : AddressingMode) : Option CPU := do
  let addr ← s.get_operand_address mode
  let v ← s.mem_read addr
  let neg_value ← sbc_neg_value v
  let p := s.add_to_register_a neg_value
  let s := { p.1 with register_a := p.2 }
  return s.update_zero_and_negative_falgs s.register_a

/-- `asl_accumulator`: shift A left one bit, CARRY from the bit shifted
out, update Z/N. -/
def CPU.asl_accumulator (s : CPU) : CPU :=
  let shifted := s.register_a <<< 1
  let s := { s with status := { s.status with carry := decide (shifted > 0xff) } }
  let s := { s with register_a := shifted % 256 }
  s.update_zero_and_negative_falgs s.register_a

/-- `asl` (memory operand): shift the byte at the resolved address left,
CARRY from the bit shifted out, write back, update Z/N from a re-read. -/
def CPU.asl (s : CPU) (mode : AddressingMode) : Option CPU := do
  let addr ← s.get_operand_address mode
  let v ← s.mem_read addr
  let shifted := v <<< 1
  let s := { s with status := { s.status with carry := decide (shifted > 0xff) } }
  let s ← s.mem_write addr (shifted % 256)
  let v2 ← s.mem_read addr
  return s.update_zero_and_negative_falgs v2

/-- `lsr_accumulator`: shift A right one bit, CARRY from bit 0, update Z/N. -/
def CPU.lsr_accumulator (s : CPU) : CPU :=
  let s := { s with status := { s.status with carry := (s.register_a &&& 1) == 1 } }
  let s := { s with register_a := s.register_a >>> 1 }
  s.update_zero_and_negative_falgs s.register_a

/-- `lsr` (memory operand): shift the byte at the resolved address right,
CARRY from bit 0, write back, update Z/N from a re-read. -/
def CPU.lsr (s : CPU) (mode : AddressingMode) : Option CPU := do
  let addr ← s.get_operand_address mode
  let value ← s.mem_read addr
  let s := { s with status := { s.status with carry := (value &&& 1) == 1 } }
  let s ← s.mem_write addr (value >>> 1)
  let v2 ← s.mem_read addr
  return s.update_zero_and_negative_falgs v2

/-- `rol_accumulator`: rotate A left through carry, update Z/N. -/
def CPU.rol_accumulator (s : CPU) : CPU :=
  let old_carry := s.status.carry
  let shifted := s.register_a <<< 1
  let s := { s with status := { s.status with carry := decide (shifted > 0xff) } }
  let shifted := if old_carry then shifted ||| 1 else shifted
  let s := { s with register_a := shifted % 256 }
  s.update_zero_and_negative_falgs s.register_a

/-- `rol` (memory operand), exactly as the source has it: the value that is
shifted is `register_a` (not the byte at the resolved address), and the
shifted accumulator is written to the resolved address. -/
def CPU.rol (s : CPU) (mode : AddressingMode) : Option CPU := do
  let addr ← s.get_operand_address mode
  let old_carry := s.status.carry
  let shifted := s.register_a <<< 1
  let s := { s with status := { s.status with carry := decide (shifted > 0xff) } }
  let shifted := if old_carry then shifted ||| 1 else shifted
  let s ← s.mem_write addr (shifted % 256)
  let v2 ← s.mem_read addr
  return s.update_zero_and_negative_falgs v2

/-- `ror_accumulator`: rotate A right through carry, update Z/N. -/
def CPU.ror_accumulator (s : CPU) : CPU :=
  let old_carry := s.status.carry
  let s := { s with status := { s.status with carry := (s.register_a &&& 1) == 1 } }
  let s := { s with register_a := s.register_a >>> 1 }
  let s := if old_carry then { s with register_a := s.register_a ||| 0b10000000 } else s
  s.update_zero_and_negative_falgs s.register_a

/-- `ror` (memory operand), exactly as the source has it: CARRY is taken
from bit 0 of the byte at the resolved address and the old carry is OR-ed
into bit 7, but the byte is never shifted right before being written back. -/
def CPU.ror (s : CPU) (mode : AddressingMode) : Option CPU := do
  let addr ← s.get_operand_address mode
  let old_carry := s.status.carry
  let value ← s.mem_read addr
  let s := { s with status := { s.status with carry := (value &&& 1) == 1 } }
  let value := if old_carry then value ||| 0b10000000 else value
  let s ← s.mem_write addr value
  let v2 ← s.mem_read addr
  return s.update_zero_and_negative_falgs v2

/-- `branch`: when the condition holds, read the offset byte at the current
program counter and set the program counter to
`pc.wrapping_add(1).wrapping_add(offset as u16)`.  The source's
`offset as u16` zero-extends the `u8` offset, so no sign extension is
performed. -/
def CPU.branch (s : CPU) (condition : Bool) : Option CPU :=
  if condition then do
    let offset ← s.mem_read s.program_counter
    return { s with
      program_counter := ((s.program_counter + 1) % 65536 + offset) % 65536 }
  else some s

/-- `bit`: set OVERFLOW from bit 6 and NEGATIVE from bit 7 of the resolved
byte, and ZERO from whether the byte AND the accumulator is 0. -/
def CPU.bit (s : CPU) (mode : AddressingMode) : Option CPU := do
  let addr ← s.get_operand_address mode
  let value ← s.mem_read addr
  return { s with status :=
    { s.status with
        overflow := (value &&& 0b01000000) != 0,
        negative := (value &&& 0b10000000) != 0,
        zero := (value &&& s.register_a) == 0 } }

/-- An entry of the external opcode-metadata table: encoded length in bytes
and addressing mode (the mnemonic and cycle count are never consulted by
the engine). -/
structure OpCode where
  len : Nat
  mode : AddressingMode

/-- Modelled from the spec: the external opcode-metadata table
(`opcodes::OPCODES_MAP`, whose source file is not under src/).  Per the
spec, it maps each opcode byte the dispatch recognizes to its addressing
mode and encoded length; entries follow the standard 6502 encodings the
spec describes for the dispatched instruction families (immediate and
zero-page forms are 2 bytes, absolute forms 3 bytes, implied/accumulator
forms 1 byte, branches 2 bytes with no addressing mode, BRK and NOP
1 byte).  Bytes outside the table yield `none` (the `expect` panic). -/
def OPCODES_MAP (code : Nat) : Option OpCode :=
  match code with
  | 0x00 | 0xea | 0x0a | 0x4a | 0x2a | 0x6a
  | 0xe8 | 0xc8 | 0xaa | 0x8a | 0xa8 | 0x98 =>
      some { len := 1, mode := .NoneAddressing }
  | 0xb0 | 0x90 | 0xf0 | 0xd0 | 0x30 | 0x10 | 0x70 | 0x50 =>
      some { len := 2, mode := .NoneAddressing }
  | 0x69 | 0xe9 | 0xa9 | 0x29 | 0x09 | 0x49 | 0xa2 | 0xa0 =>
      some { len := 2, mode := .Immediate }
  | 0x65 | 0xe5 | 0xa5 | 0x25 | 0x05 | 0x45 | 0x85 | 0xa6 | 0xa4
  | 0x06 | 0x46 | 0x26 | 0x66 | 0xe6 | 0x86 | 0x84 | 0x24 =>
      some { len := 2, mode := .ZeroPage }
  | 0x75 | 0xf5 | 0xb5 | 0x35 | 0x15 | 0x55 | 0x95 | 0xb4
  | 0x16 | 0x56 | 0x36 | 0x76 | 0xf6 | 0x94 =>
      some { len := 2, mode := .ZeroPage_X }
  | 0xb6 | 0x96 =>
      some { len := 2, mode := .ZeroPage_Y }
  | 0x6d | 0xed | 0xad | 0x2d | 0x0d | 0x4d | 0x8d | 0xae | 0xac
  | 0x0e | 0x4e | 0x2e | 0x6e | 0xee | 0x8e | 0x8c | 0x2c =>
      some { len := 3, mode := .Absolute }
  | 0x7d | 0xfd | 0xbd | 0x3d | 0x1d | 0x5d | 0x9d | 0xbc
  | 0x1e | 0x5e | 0x3e | 0x7e | 0xfe =>
      some { len := 3, mode := .Absolute_X }
  | 0x79 | 0xf9 | 0xb9 | 0x39 | 0x19 | 0x59 | 0x99 | 0xbe =>
      some { len := 3, mode := .Absolute_Y }
  | 0x61 | 0xe1 | 0xa1 | 0x21 | 0x01 | 0x41 | 0x81 =>
      some { len := 2, mode := .Indirect_X }
  | 0x71 | 0xf1 | 0xb1 | 0x31 | 0x11 | 0x51 | 0x91 =>
      some { len := 2, mode := .Indirect_Y }
  | _ => none

/-- The non-halting arms of the dispatch `match` in `run`; the `todo`
fallthrough for unimplemented opcodes is `none`.  (`0x00` is handled by
the caller, which returns from the loop.) -/
def CPU.execute_opcode (s : CPU) (code : Nat) (mode : AddressingMode) :
    Option CPU :=
  match code with
  | 0x69 | 0x65 | 0x75 | 0x6d | 0x7d | 0x79 | 0x61 | 0x71 => s.adc mode
  | 0xe9 | 0xe5 | 0xf5 | 0xed | 0xfd | 0xf9 | 0xe1 | 0xf1 => s.sbc mode
  | 0xa9 | 0xa5 | 0xb5 | 0xad | 0xbd | 0xb9 | 0xa1 | 0xb1 => s.lda mode
  | 0x29 | 0x25 | 0x35 | 0x2d | 0x3d | 0x39 | 0x21 | 0x31 => s.and mode
  | 0x09 | 0x05 | 0x15 | 0x0d | 0x1d | 0x19 | 0x01 | 0x11 => s.ora mode
  | 0x49 | 0x45 | 0x55 | 0x4d | 0x5d | 0x59 | 0x41 | 0x51 => s.eor mode
  | 0x85 | 0x95 | 0x8d | 0x9d | 0x99 | 0x81 | 0x91 => s.sta mode
  | 0xa2 | 0xa6 | 0xb6 | 0xae | 0xbe => s.ldx mode
  | 0xa0 | 0xa4 | 0xb4 | 0xac | 0xbc => s.ldy mode
  | 0x06 | 0x16 | 0x0e | 0x1e => s.asl mode
  | 0x46 | 0x56 | 0x4e | 0x5e => s.lsr mode
  | 0x26 | 0x36 | 0x2e | 0x3e => s.rol mode
  | 0x66 | 0x76 | 0x6e | 0x7e => s.ror mode
  | 0xe6 | 0xf6 | 0xee | 0xfe => s.inc mode
  | 0x86 | 0x96 | 0x8e => s.stx mode
  | 0x84 | 0x94 | 0x8c => s.sty mode
  | 0x24 | 0x2c => s.bit mode
  | 0x0a => some s.asl_accumulator
  | 0x4a => some s.lsr_accumulator
  | 0x2a => some s.rol_accumulator
  | 0x6a => some s.ror_accumulator
  | 0xe8 => some s.inx
  | 0xc8 => some s.iny
  | 0xaa => some s.tax
  | 0x8a => some s.txa
  | 0xa8 => some s.tay
  | 0x98 => some s.tya
  | 0xb0 => s.branch s.status.carry
  | 0x90 => s.branch (!s.status.carry)
  | 0xf0 => s.branch s.status.zero
  | 0xd0 => s.branch (!s.status.zero)
  | 0x30 => s.branch s.status.negative
  | 0x10 => s.branch (!s.status.negative)
  | 0x70 => s.branch s.status.overflow
  | 0x50 => s.branch (!s.status.overflow)
  | 0xea => some s
  | _ => none

/-- The `run` loop with explicit fuel: fetch the opcode byte, advance the
program counter by one, look the byte up in the opcode table, return on
`0x00`, otherwise execute the instruction and — only if the instruction
left the program counter where the fetch put it — advance it by the
encoded length minus one (checked against 16-bit overflow, which would
panic in the source).  `none` is out of fuel or a panic. -/
def CPU.runFuel : Nat → CPU → Option CPU
  | 0, _ => none
  | n + 1, s =>
    match s.mem_read s.program_counter with
    | none => none
    | some code =>
      let s1 := { s with program_counter := s.program_counter + 1 }
      match OPCODES_MAP code with
      | none => none
      | some opcode =>
        if code == 0 then some s1
        else
          match s1.execute_opcode code opcode.mode with
          | none => none
          | some s2 =>
            if s1.program_counter == s2.program_counter then
              if s2.program_counter + (opcode.len - 1) < 65536 then
                CPU.runFuel n
                  { s2 with
                    program_counter := s2.program_counter + (opcode.len - 1) }
              else none
            else CPU.runFuel n s2

/-- `reset`: zero the registers, restore the reset flag pattern, and load
the program counter from the little-endian reset vector at 0xFFFC.  The
stack pointer is not touched by the source's `reset`. -/
def CPU.reset (s : CPU) : Option CPU := do
  let pc ← s.mem_read_u16 0xFFFC
  return { s with
    register_a := 0, register_x := 0, register_y := 0,
    status := resetFlags, program_counter := pc }

/-- `load`: copy the program image to memory starting at 0x8000 and write
0x8000 little-endian into the reset vector at 0xFFFC.  `none` models the
slice panic when the image does not fit in the memory array. -/
def CPU.load (s : CPU) (program : List Nat) : Option CPU :=
  if 0x8000 + program.length ≤ MEMORY_LEN then
    let mem : Nat → Nat := fun a =>
      if 0x8000 ≤ a ∧ a < 0x8000 + program.length then
        program.getD (a - 0x8000) 0
      else s.memory a
    let s := { s with memory := mem }
    s.mem_write_u16 0xFFFC 0x8000
  else none

/-- `load_and_run`: `load`, then `reset`, then `run` (with fuel). -/
def CPU.load_and_run (s : CPU) (program : List Nat) (fuel : Nat) :
    Option CPU := do
  let s ← s.load program
  let s ← s.reset
  CPU.runFuel fuel s

/-- Build a memory function from an address/value association list (absent
addresses read 0, matching the zero-initialized array). -/
def memOf (l : List (Nat × Nat)) : Nat → Nat := fun a =>
  (l.lookup a).getD 0

/-- Indirect-Y resolution following the spec's words (reference definition
for comparison with `get_operand_address`): the pointer byte is read
directly from the zero-page operand with no index added, the 16-bit base
is read little-endian from that pointer with the high-byte fetch wrapped
modulo 256, and Y is added to the base with 16-bit wraparound. -/
def indirect_y_spec (s : CPU) : Option Nat := do
  let base ← s.mem_read s.program_counter
  let lo ← s.mem_read base
  let hi ← s.mem_read ((base + 1) % 256)
  return (((hi <<< 8) ||| lo) + s.register_y) % 65536

/-- Branch-target computation following the spec's words (reference
definition): the offset byte is a signed 8-bit value added with 16-bit
wraparound to the program counter after the offset byte is consumed.
Sign-extending an offset in 0x80..0xFF to 16 bits adds 0xFF00 before the
modulo. -/
def branch_target_spec (pc offset : Nat) : Nat :=
  if offset < 0x80 then (pc + 1 + offset) % 65536
  else (pc + 1 + offset + 0xFF00) % 65536

/-- State exercising Indirect-Y: operand byte 0x10, Y = 4, zero-page
pointer 0x10/0x11 holding base 0x2000, and bytes at 0x14/0x15 (the
locations the source actually reads) holding 0x34/0x12. -/
def c1state : CPU :=
  { CPU.new with
      program_counter := 0x8000, register_y := 4,
      memory := memOf
        [(0x8000, 0x10), (0x10, 0x00), (0x11, 0x20),
         (0x14, 0x34), (0x15, 0x12)] }

/-- State exercising a taken branch: the program counter points at an
offset byte of 0xFE (signed value -2). -/
def c2state : CPU :=
  { CPU.new with
      program_counter := 0x8001,
      memory := memOf [(0x8001, 0xFE)] }

/-- State exercising ROL with a memory operand: accumulator 0x01, carry
clear, zero-page operand 0x40 whose cell holds 0xAA. -/
def c3rolstate : CPU :=
  { CPU.new with
      program_counter := 0x8000, register_a := 0x01,
      memory := memOf [(0x8000, 0x40), (0x40, 0xAA)] }

/-- State exercising ROR with a memory operand: carry set, zero-page
operand 0x40 whose cell holds 0xAA. -/
def c3rorstate : CPU :=
  { CPU.new with
      program_counter := 0x8000,
      status := { resetFlags with carry := true },
      memory := memOf [(0x8000, 0x40), (0x40, 0xAA)] }

/-- State whose next instruction byte is an SBC immediate operand 3. -/
def c5state : CPU :=
  { CPU.new with
      program_counter := 0x8000,
      memory := memOf [(0x8000, 3)] }

/-- State for flag-invariant witnesses: the byte at the program counter
(the immediate operand) is 0x80. -/
def c7state : CPU :=
  { CPU.new with
      program_counter := 0x10,
      memory := memOf [(0x10, 0x80)] }

/-- State exercising zero-page indexed wraparound: base byte 0xFF with
X = 0x10 (0xFF + 0x10 wraps to 0x0F). -/
def c8state : CPU :=
  { CPU.new with
      register_x := 0x10,
      memory := memOf [(0, 0xFF)] }

/-- State whose program counter sits on a halt byte (memory is all zero). -/
def c9state : CPU := { CPU.new with program_counter := 0x8000 }

/-- The Zero/Negative contract for a result byte: ZERO holds iff the
result is 0, NEGATIVE iff bit 7 of the result is set. -/
def zn_ok (f : CpuFlags) (r : Nat) : Prop :=
  (f.zero = true ↔ r = 0) ∧ (f.negative = true ↔ (r &&& 0b10000000) ≠ 0)

lemma zn_update (s : CPU) (r : Nat) :
    zn_ok (s.update_zero_and_negative_falgs r).status r := by
  constructor
  · simp [CPU.update_zero_and_negative_falgs]
  · simp [CPU.update_zero_and_negative_falgs, bne_iff_ne]

lemma mem_read_eq_some {s : CPU} {addr v : Nat} :
    s.mem_read addr = some v ↔ addr < MEMORY_LEN ∧ s.memory addr = v := by
  unfold CPU.mem_read
  by_cases h : addr < MEMORY_LEN <;> simp [h]

lemma mem_write_eq_some {s : CPU} {addr d : Nat} {s' : CPU} :
    s.mem_write addr d = some s' ↔
      addr < MEMORY_LEN ∧
      s' = { s with memory := fun a => if a = addr then d else s.memory a } := by
  unfold CPU.mem_write
  by_cases h : addr < MEMORY_LEN <;> simp [h, eq_comm]

lemma runFuel_eq_some_mem :
    ∀ {n : Nat} {s s' : CPU}, CPU.runFuel n s = some s' →
      s'.mem_read (s'.program_counter - 1) = some 0 := by
  intro n
  induction n with
  | zero => intro s s' h; simp [CPU.runFuel] at h
  | succ n ih =>
    intro s s' h
    rw [CPU.runFuel] at h
    cases hcode : s.mem_read s.program_counter with
    | none => rw [hcode] at h; cases h
    | some code =>
      rw [hcode] at h
      cases hop : OPCODES_MAP code with
      | none => simp only [hop] at h; exact Option.noConfusion h
      | some op =>
        simp only [hop] at h
        by_cases hc : code = 0
        · subst hc
          simp only [beq_self_eq_true, if_true, Option.some.injEq] at h
          subst h
          simp only [Nat.add_sub_cancel]
          simpa [CPU.mem_read] using hcode
        · rw [if_neg (by simpa using hc)] at h
          cases hex : CPU.execute_opcode
              { s with program_counter := s.program_counter + 1 }
              code op.mode with
          | none => rw [hex] at h; exact Option.noConfusion h
          | some s2 =>
            rw [hex] at h
            simp only at h
            split at h
            · split at h
              · exact ih h
              · exact Option.noConfusion h
            · exact ih h

/-- C1: on the state `c1state` (operand byte 0x10, Y = 4, 16-bit base
0x2000 stored at 0x10/0x11), the source's Indirect-Y resolution returns
0x1234 — the little-endian word at the Y-indexed pointer 0x14 — whereas
the resolution described by the claim (`indirect_y_spec`) returns
0x2004 = base 0x2000 plus Y; the two resolvers disagree on this state. -/
theorem c1_indirect_y_resolution :
    c1state.get_operand_address AddressingMode.Indirect_Y = some 0x1234 ∧
    indirect_y_spec c1state = some 0x2004 ∧
    c1state.get_operand_address AddressingMode.Indirect_Y ≠
      indirect_y_spec c1state :=
  ⟨by decide, by decide, by decide⟩

/-- C2: on the state `c2state` (program counter on an offset byte 0xFE,
i.e. signed -2), a taken branch in the source moves the program counter
forward to 0x8100 because the offset is zero-extended, whereas the
signed-offset computation described by the claim (`branch_target_spec`)
yields 0x8000; the offset 0xFE does not move the program counter
backward. -/
theorem c2_branch_offset_zero_extended :
    (c2state.branch true).map CPU.program_counter = some 0x8100 ∧
    branch_target_spec 0x8001 0xFE = 0x8000 ∧
    (0x8100 : Nat) ≠ 0x8000 :=
  ⟨by decide, by decide, by decide⟩

/-- C3: with accumulator 0x01, carry clear and the byte 0xAA at the
resolved address 0x40, the source's memory-operand ROL stores 0x02 (the
shifted accumulator) at 0x40 with carry clear — not the rotation
0x54 of the byte at that address with carry set; and with carry set and
0xAA at 0x40, the source's memory-operand ROR stores 0xAA (the byte is
never shifted right) — not the rotation 0xD5. -/
theorem c3_rol_ror_memory_operand :
    (c3rolstate.rol AddressingMode.ZeroPage).map
        (fun s => (s.memory 0x40, s.status.carry)) = some (0x02, false) ∧
    (0x02 : Nat) ≠ 0x54 ∧
    (c3rorstate.ror AddressingMode.ZeroPage).map
        (fun s => (s.memory 0x40, s.status.carry)) = some (0xAA, false) ∧
    (0xAA : Nat) ≠ 0xD5 :=
  ⟨by decide, by decide, by decide, by decide⟩

/-- C4: the memory array has `0xFFFF = 65535` elements, one byte short of
the full 16-bit address space, so `mem_read` is not total over 16-bit
addresses: reading address 0xFFFF fails (an out-of-bounds panic) in every
state, while 0xFFFE is still readable. -/
theorem c4_memory_read_not_total :
    MEMORY_LEN = 65535 ∧ (∀ s : CPU, s.mem_read 0xFFFF = none) ∧
    CPU.new.mem_read 0xFFFE = some 0 := by
  refine ⟨rfl, fun s => ?_, rfl⟩
  simp [CPU.mem_read, MEMORY_LEN]

/-- C5 counterexample: for the resolved operand byte 0x00 the `!value + 1`
computation in `sbc` overflows 8 bits (0xFF + 1 = 0x100), so the claim's
assertion that the non-wrapping addition stays within 8 bits for every
operand byte, including 0x00, is false. -/
theorem c5_sbc_negation_counterexample : sbc_neg_value 0 = none := rfl

set_option maxRecDepth 4096 in
/-- C5 (amended): for every resolved operand byte except 0x00, the
`!value + 1` computation stays within 8 bits and equals the two's
complement 256 - value, and `sbc` feeds that value to the shared
`add_to_register_a` routine; at 0x00 the non-wrapping addition overflows. -/
theorem c5_sbc_negation (v : Nat) (h1 : v < 256) (h2 : 1 ≤ v) :
    sbc_neg_value v = some (256 - v) ∧
    ∀ (s : CPU) (mode : AddressingMode) (addr : Nat),
      s.get_operand_address mode = some addr → s.mem_read addr = some v →
      s.sbc mode = some
        (CPU.update_zero_and_negative_falgs
          { (s.add_to_register_a (256 - v)).1 with
              register_a := (s.add_to_register_a (256 - v)).2 }
          (s.add_to_register_a (256 - v)).2) := by
  have hneg : sbc_neg_value v = some (256 - v) := by
    have hx : ∀ w : Nat, w < 256 → 1 ≤ w → sbc_neg_value w = some (256 - w) := by
      decide
    exact hx v h1 h2
  refine ⟨hneg, ?_⟩
  intro s mode addr hga hmr
  simp [CPU.sbc, hga, hmr, hneg]

theorem c5_sbc_negation_witness :
    sbc_neg_value 3 = some 253 ∧
    c5state.sbc AddressingMode.Immediate = some
      (CPU.update_zero_and_negative_falgs
        { (c5state.add_to_register_a 253).1 with
            register_a := (c5state.add_to_register_a 253).2 }
        (c5state.add_to_register_a 253).2) := by
  have h := c5_sbc_negation 3 (by decide) (by decide)
  exact ⟨h.1, h.2 c5state AddressingMode.Immediate 0x8000 rfl rfl⟩

/-- C6: loading and running [LDA #0x80, ADC #0x80, BRK] from a fresh CPU
leaves the accumulator at 0x00 with Carry, Zero and Overflow set and
Negative clear; loading and running [LDA #0x7F, ADC #0x7F, BRK] (carry is
clear after reset) leaves 0xFE with Carry and Zero clear, Overflow and
Negative set. -/
theorem c6_adc_overflow_boundary :
    (CPU.new.load_and_run [0xa9, 0x80, 0x69, 0x80, 0x00] 10).map
        (fun s => (s.register_a, s.status.carry, s.status.zero,
          s.status.overflow, s.status.negative))
      = some (0x00, true, true, true, false) ∧
    (CPU.new.load_and_run [0xa9, 0x7f, 0x69, 0x7f, 0x00] 10).map
        (fun s => (s.register_a, s.status.carry, s.status.zero,
          s.status.overflow, s.status.negative))
      = some (0xfe, false, false, true, true) :=
  ⟨by decide, by decide⟩

/-- C7: every register- or memory-mutating instruction of the core
(loads, transfers, bitwise ops, ADC/SBC, shifts/rotates in both variants,
INC) re-establishes the Zero/Negative contract on the result it produced:
ZERO holds iff the result is 0 and NEGATIVE iff bit 7 of the result is
set, for all states and addressing modes. -/
theorem c7_zero_negative_invariant (s : CPU) (mode : AddressingMode) :
    (∀ s', s.lda mode = some s' → zn_ok s'.status s'.register_a) ∧
    (∀ s', s.ldx mode = some s' → zn_ok s'.status s'.register_x) ∧
    (∀ s', s.ldy mode = some s' → zn_ok s'.status s'.register_y) ∧
    zn_ok (s.tax).status (s.tax).register_x ∧
    zn_ok (s.txa).status (s.txa).register_a ∧
    zn_ok (s.tay).status (s.tay).register_y ∧
    zn_ok (s.tya).status (s.tya).register_a ∧
    (∀ s', s.and mode = some s' → zn_ok s'.status s'.register_a) ∧
    (∀ s', s.ora mode = some s' → zn_ok s'.status s'.register_a) ∧
    (∀ s', s.eor mode = some s' → zn_ok s'.status s'.register_a) ∧
    (∀ s', s.adc mode = some s' → zn_ok s'.status s'.register_a) ∧
    (∀ s', s.sbc mode = some s' → zn_ok s'.status s'.register_a) ∧
    zn_ok (s.asl_accumulator).status (s.asl_accumulator).register_a ∧
    zn_ok (s.lsr_accumulator).status (s.lsr_accumulator).register_a ∧
    zn_ok (s.rol_accumulator).status (s.rol_accumulator).register_a ∧
    zn_ok (s.ror_accumulator).status (s.ror_accumulator).register_a ∧
    (∀ addr s', s.get_operand_address mode = some addr →
      s.asl mode = some s' → zn_ok s'.status (s'.memory addr)) ∧
    (∀ addr s', s.get_operand_address mode = some addr →
      s.lsr mode = some s' → zn_ok s'.status (s'.memory addr)) ∧
    (∀ addr s', s.get_operand_address mode = some addr →
      s.rol mode = some s' → zn_ok s'.status (s'.memory addr)) ∧
    (∀ addr s', s.get_operand_address mode = some addr →
      s.ror mode = some s' → zn_ok s'.status (s'.memory addr)) ∧
    (∀ addr s', s.get_operand_address mode = some addr →
      s.inc mode = some s' → zn_ok s'.status (s'.memory addr)) := by
  refine ⟨?_, ?_, ?_, ?_, ?_, ?_, ?_, ?_, ?_, ?_, ?_, ?_, ?_, ?_, ?_, ?_,
    ?_, ?_, ?_, ?_, ?_⟩
  · intro s' h
    simp only [CPU.lda, Option.bind_eq_bind', Option.bind_eq_some',
      Option.pure_def, Option.some.injEq] at h
    obtain ⟨addr, -, v, -, rfl⟩ := h
    exact zn_update _ _
  · intro s' h
    simp only [CPU.ldx, Option.bind_eq_bind', Option.bind_eq_some',
      Option.pure_def, Option.some.injEq] at h
    obtain ⟨addr, -, v, -, rfl⟩ := h
    exact zn_update _ _
  · intro s' h
    simp only [CPU.ldy, Option.bind_eq_bind', Option.bind_eq_some',
      Option.pure_def, Option.some.injEq] at h
    obtain ⟨addr, -, v, -, rfl⟩ := h
    exact zn_update _ _
  · exact zn_update { s with register_x := s.register_a } _
  · exact zn_update { s with register_a := s.register_x } _
  · exact zn_update { s with register_y := s.register_a } _
  · exact zn_update { s with register_a := s.register_y } _
  · intro s' h
    simp only [CPU.and, Option.bind_eq_bind', Option.bind_eq_some',
      Option.pure_def, Option.some.injEq] at h
    obtain ⟨addr, -, v, -, rfl⟩ := h
    exact zn_update _ _
  · intro s' h
    simp only [CPU.ora, Option.bind_eq_bind', Option.bind_eq_some',
      Option.pure_def, Option.some.injEq] at h
    obtain ⟨addr, -, v, -, rfl⟩ := h
    exact zn_update _ _
  · intro s' h
    simp only [CPU.eor, Option.bind_eq_bind', Option.bind_eq_some',
      Option.pure_def, Option.some.injEq] at h
    obtain ⟨addr, -, v, -, rfl⟩ := h
    exact zn_update _ _
  · intro s' h
    simp only [CPU.adc, Option.bind_eq_bind', Option.bind_eq_some',
      Option.pure_def, Option.some.injEq] at h
    obtain ⟨addr, -, v, -, rfl⟩ := h
    exact zn_update _ _
  · intro s' h
    simp only [CPU.sbc, Option.bind_eq_bind', Option.bind_eq_some',
      Option.pure_def, Option.some.injEq] at h
    obtain ⟨addr, -, v, -, nv, -, rfl⟩ := h
    exact zn_update _ _
  · exact zn_update _ _
  · exact zn_update _ _
  · exact zn_update _ _
  · exact zn_update _ _
  · intro addr s' hga h
    simp only [CPU.asl, Option.bind_eq_bind', Option.bind_eq_some',
      Option.pure_def, Option.some.injEq] at h
    obtain ⟨addr2, hga2, v, hv, s2, hw, v2, hv2, rfl⟩ := h
    rw [hga] at hga2
    injection hga2 with he
    subst he
    have hm : s2.memory addr = v2 := (mem_read_eq_some.mp hv2).2
    have hmem : (CPU.update_zero_and_negative_falgs s2 v2).memory addr = v2 := by
      simpa [CPU.update_zero_and_negative_falgs] using hm
    rw [hmem]
    exact zn_update _ _
  · intro addr s' hga h
    simp only [CPU.lsr, Option.bind_eq_bind', Option.bind_eq_some',
      Option.pure_def, Option.some.injEq] at h
    obtain ⟨addr2, hga2, v, hv, s2, hw, v2, hv2, rfl⟩ := h
    rw [hga] at hga2
    injection hga2 with he
    subst he
    have hm : s2.memory addr = v2 := (mem_read_eq_some.mp hv2).2
    have hmem : (CPU.update_zero_and_negative_falgs s2 v2).memory addr = v2 := by
      simpa [CPU.update_zero_and_negative_falgs] using hm
    rw [hmem]
    exact zn_update _ _
  · intro addr s' hga h
    simp only [CPU.rol, Option.bind_eq_bind', Option.bind_eq_some',
      Option.pure_def, Option.some.injEq] at h
    obtain ⟨addr2, hga2, s2, hw, v2, hv2, rfl⟩ := h
    rw [hga] at hga2
    injection hga2 with he
    subst he
    have hm : s2.memory addr = v2 := (mem_read_eq_some.mp hv2).2
    have hmem : (CPU.update_zero_and_negative_falgs s2 v2).memory addr = v2 := by
      simpa [CPU.update_zero_and_negative_falgs] using hm
    rw [hmem]
    exact zn_update _ _
  · intro addr s' hga h
    simp only [CPU.ror, Option.bind_eq_bind', Option.bind_eq_some',
      Option.pure_def, Option.some.injEq] at h
    obtain ⟨addr2, hga2, v, hv, s2, hw, v2, hv2, rfl⟩ := h
    rw [hga] at hga2
    injection hga2 with he
    subst he
    have hm : s2.memory addr = v2 := (mem_read_eq_some.mp hv2).2
    have hmem : (CPU.update_zero_and_negative_falgs s2 v2).memory addr = v2 := by
      simpa [CPU.update_zero_and_negative_falgs] using hm
    rw [hmem]
    exact zn_update _ _
  · intro addr s' hga h
    simp only [CPU.inc, Option.bind_eq_bind', Option.bind_eq_some',
      Option.pure_def, Option.some.injEq] at h
    obtain ⟨addr2, hga2, v, hv, s2, hw, rfl⟩ := h
    rw [hga] at hga2
    injection hga2 with he
    subst he
    obtain ⟨-, rfl⟩ := mem_write_eq_some.mp hw
    have hmem : (CPU.update_zero_and_negative_falgs
        { s with memory := fun a => if a = addr then (v + 1) % 256 else s.memory a }
        ((v + 1) % 256)).memory addr = (v + 1) % 256 := by
      simp [CPU.update_zero_and_negative_falgs]
    rw [hmem]
    exact zn_update _ _

theorem c7_zero_negative_invariant_witness :
    zn_ok ((c7state.lda AddressingMode.Immediate).getD CPU.new).status
      ((c7state.lda AddressingMode.Immediate).getD CPU.new).register_a ∧
    zn_ok ((c7state.ldx AddressingMode.Immediate).getD CPU.new).status
      ((c7state.ldx AddressingMode.Immediate).getD CPU.new).register_x ∧
    zn_ok ((c7state.ldy AddressingMode.Immediate).getD CPU.new).status
      ((c7state.ldy AddressingMode.Immediate).getD CPU.new).register_y ∧
    zn_ok ((c7state.and AddressingMode.Immediate).getD CPU.new).status
      ((c7state.and AddressingMode.Immediate).getD CPU.new).register_a ∧
    zn_ok ((c7state.ora AddressingMode.Immediate).getD CPU.new).status
      ((c7state.ora AddressingMode.Immediate).getD CPU.new).register_a ∧
    zn_ok ((c7state.eor AddressingMode.Immediate).getD CPU.new).status
      ((c7state.eor AddressingMode.Immediate).getD CPU.new).register_a ∧
    zn_ok ((c7state.adc AddressingMode.Immediate).getD CPU.new).status
      ((c7state.adc AddressingMode.Immediate).getD CPU.new).register_a ∧
    zn_ok ((c7state.sbc AddressingMode.Immediate).getD CPU.new).status
      ((c7state.sbc AddressingMode.Immediate).getD CPU.new).register_a ∧
    zn_ok ((c7state.asl AddressingMode.Immediate).getD CPU.new).status
      (((c7state.asl AddressingMode.Immediate).getD CPU.new).memory 0x10) ∧
    zn_ok ((c7state.lsr AddressingMode.Immediate).getD CPU.new).status
      (((c7state.lsr AddressingMode.Immediate).getD CPU.new).memory 0x10) ∧
    zn_ok ((c7state.rol AddressingMode.Immediate).getD CPU.new).status
      (((c7state.rol AddressingMode.Immediate).getD CPU.new).memory 0x10) ∧
    zn_ok ((c7state.ror AddressingMode.Immediate).getD CPU.new).status
      (((c7state.ror AddressingMode.Immediate).getD CPU.new).memory 0x10) ∧
    zn_ok ((c7state.inc AddressingMode.Immediate).getD CPU.new).status
      (((c7state.inc AddressingMode.Immediate).getD CPU.new).memory 0x10) := by
  obtain ⟨h1, h2, h3, -, -, -, -, h8, h9, h10, h11, h12, -, -, -, -,
    h17, h18, h19, h20, h21⟩ :=
    c7_zero_negative_invariant c7state AddressingMode.Immediate
  exact ⟨h1 _ rfl, h2 _ rfl, h3 _ rfl, h8 _ rfl, h9 _ rfl, h10 _ rfl,
    h11 _ rfl, h12 _ rfl, h17 0x10 _ rfl rfl, h18 0x10 _ rfl rfl,
    h19 0x10 _ rfl rfl, h20 0x10 _ rfl rfl, h21 0x10 _ rfl rfl⟩

/-- C8: zero-page indexed resolution uses 8-bit wrapping addition of the
base byte and the index register, so every address it produces lies in
page 0 (below 0x100), for every state. -/
theorem c8_zeropage_indexed_wraps (s : CPU) (addr : Nat) :
    (s.get_operand_address AddressingMode.ZeroPage_X = some addr →
      addr < 256) ∧
    (s.get_operand_address AddressingMode.ZeroPage_Y = some addr →
      addr < 256) := by
  constructor <;> intro h <;>
  · simp only [CPU.get_operand_address, Option.bind_eq_bind',
      Option.bind_eq_some', Option.pure_def, Option.some.injEq] at h
    obtain ⟨pos, -, rfl⟩ := h
    exact Nat.mod_lt _ (by decide)

theorem c8_zeropage_indexed_wraps_witness : (0x0F : Nat) < 256 :=
  (c8_zeropage_indexed_wraps c8state 0x0F).1 rfl

/-- C9: fetching the halt opcode 0x00 stops the run loop immediately with
the program counter one past the halt byte, and conversely every run that
returns normally stopped on a halt byte: the byte just before the final
program counter reads as 0x00. -/
theorem c9_run_halts_on_brk (n : Nat) (s : CPU) :
    (s.mem_read s.program_counter = some 0 →
      CPU.runFuel (n + 1) s =
        some { s with program_counter := s.program_counter + 1 }) ∧
    (∀ s', CPU.runFuel n s = some s' →
      s'.mem_read (s'.program_counter - 1) = some 0) := by
  constructor
  · intro h
    rw [CPU.runFuel, h]
    rfl
  · intro s' h
    exact runFuel_eq_some_mem h

theorem c9_run_halts_on_brk_witness :
    CPU.runFuel 5 c9state =
      some { c9state with program_counter := c9state.program_counter + 1 } ∧
    CPU.mem_read
        { c9state with program_counter := c9state.program_counter + 1 }
        ({ c9state with
            program_counter := c9state.program_counter + 1 }.program_counter
          - 1) = some 0 := by
  have h4 := c9_run_halts_on_brk 4 c9state
  have h5 := c9_run_halts_on_brk 5 c9state
  exact ⟨h4.1 rfl, h5.2 _ (h4.1 rfl)⟩

/-- C10: INX and INY leave every register (in particular X resp. Y), the
program counter, the stack pointer and all of memory unchanged, set ZERO
and NEGATIVE from the 8-bit-wrapped incremented register value, and leave
every other flag unchanged. -/
theorem c10_inx_iny_flags_only (s : CPU) :
    (s.inx).register_x = s.register_x ∧
    (s.inx).register_a = s.register_a ∧
    (s.inx).register_y = s.register_y ∧
    (s.inx).program_counter = s.program_counter ∧
    (s.inx).stack_pointer = s.stack_pointer ∧
    (s.inx).memory = s.memory ∧
    (s.inx).status.zero = ((s.register_x + 1) % 256 == 0) ∧
    (s.inx).status.negative = ((((s.register_x + 1) % 256) &&& 0b10000000) != 0) ∧
    (s.inx).status.carry = s.status.carry ∧
    (s.inx).status.overflow = s.status.overflow ∧
    (s.inx).status.interrupt_disable = s.status.interrupt_disable ∧
    (s.inx).status.decimal_mode = s.status.decimal_mode ∧
    (s.inx).status.brk = s.status.brk ∧
    (s.inx).status.brk2 = s.status.brk2 ∧
    (s.iny).register_y = s.register_y ∧
    (s.iny).register_a = s.register_a ∧
    (s.iny).register_x = s.register_x ∧
    (s.iny).program_counter = s.program_counter ∧
    (s.iny).stack_pointer = s.stack_pointer ∧
    (s.iny).memory = s.memory ∧
    (s.iny).status.zero = ((s.register_y + 1) % 256 == 0) ∧
    (s.iny).status.negative = ((((s.register_y + 1) % 256) &&& 0b10000000) != 0) ∧
    (s.iny).status.carry = s.status.carry ∧
    (s.iny).status.overflow = s.status.overflow ∧
    (s.iny).status.interrupt_disable = s.status.interrupt_disable ∧
    (s.iny).status.decimal_mode = s.status.decimal_mode ∧
    (s.iny).status.brk = s.status.brk ∧
    (s.iny).status.brk2 = s.status.brk2 :=
  ⟨rfl, rfl, rfl, rfl, rfl, rfl, rfl, rfl, rfl, rfl, rfl, rfl, rfl, rfl,
   rfl, rfl, rfl, rfl, rfl, rfl, rfl, rfl, rfl, rfl, rfl, rfl, rfl, rfl⟩
